import Mathlib

set_option maxRecDepth 40000

/-!
Verification of the movie-notification scripts (`main.py`, `main_with_tracking.py`).

The repository is a pair of near-identical Python scripts that scrape a
ticket-booking page for an embedded JSON blob of showtime data, decide whether a
target movie is bookable on a target date, and e-mail recipients, with a
file-based dedup store in the tracking variant.  This file shallowly embeds the
pure decision logic of those scripts:

* Python strings are Lean `String`s; helper functions (`strLower`,
  `containsSubstr`, `splitChar`, `pyTitle`, `pyStrip`) model the corresponding
  Python string operations (ASCII case folding; Python lowercases a handful of
  non-ASCII letters too, which no input here contains).
* JSON values are the `Json` inductive; `jsonParse` models `json.loads`
  (objects collapse duplicate keys last-wins in first-occurrence position,
  exactly like a Python dict; numbers keep their lexeme since no code in the
  repository inspects a parsed number).
* Fallible steps (regex extraction failing, `json.loads` raising,
  dynamically-typed attribute accesses raising) are modelled with `Option`;
  the scripts' outer `try/except` blocks turn `none` into the documented
  default result, so the top-level functions are total, mirroring the fact
  that the Python functions never propagate exceptions.
* File I/O in the tracking variant is modelled by the explicit state `TrackFS`
  (tracking-file contents plus the list of backup files); the git side effects
  and debug-dump files the scripts write are ignored, as no observable
  behaviour of the checked claims depends on them.
-/

/-! ## Python string primitives -/

/-- Character-wise ASCII lowering, modelling `str.lower()` on the ASCII inputs
used throughout the scripts. -/
def strLower (s : String) : String :=
  String.mk (s.data.map Char.toLower)

/-- Substring test on character lists: `pat` occurs somewhere in `hay`.
Models the Python `in` operator on `str` (an empty pattern always matches). -/
def containsSubstrL (pat : List Char) : List Char → Bool
  | [] => pat.isEmpty
  | c :: rest => pat.isPrefixOf (c :: rest) || containsSubstrL pat rest

/-- `containsSubstr hay pat` models Python `pat in hay`. -/
def containsSubstr (hay pat : String) : Bool :=
  containsSubstrL pat.data hay.data

/-- `str.split(sep)` on a single-character separator: keeps empty pieces and
always returns at least one piece, exactly like Python. -/
def splitChar (sep : Char) : List Char → List (List Char)
  | [] => [[]]
  | c :: rest =>
    let r := splitChar sep rest
    if c = sep then [] :: r
    else
      match r with
      | h :: t => (c :: h) :: t
      | [] => [[c]]

/-- Python `str.title()` (restricted to ASCII letters): the first letter after
a non-letter is uppercased, every other letter is lowercased. -/
def pyTitleGo : Bool → List Char → List Char
  | _, [] => []
  | prevCased, c :: rest =>
    if c.isAlpha then
      (if prevCased then c.toLower else c.toUpper) :: pyTitleGo true rest
    else
      c :: pyTitleGo false rest

/-- Python `str.title()`. -/
def pyTitle (cs : List Char) : List Char :=
  pyTitleGo false cs

/-- The whitespace characters stripped by Python `str.strip()` (ASCII part). -/
def isPyStripWs (c : Char) : Bool :=
  c = ' ' || c = '\t' || c = '\n' || c = '\r' || c = '\x0b' || c = '\x0c'

/-- Python `str.strip()`. -/
def pyStrip (s : String) : String :=
  String.mk (((s.data.dropWhile isPyStripWs).reverse.dropWhile isPyStripWs).reverse)

/-- First-match association-list lookup, modelling `d[k]` / `k in d` on a
Python dict represented as a key-value list with distinct keys. -/
def assocLookup {α β : Type} [DecidableEq α] : List (α × β) → α → Option β
  | [], _ => none
  | (k, v) :: rest, key => if k = key then some v else assocLookup rest key

/-! ## JSON values and `json.loads` -/

/-- JSON values as produced by `json.loads`.  Object member lists are kept in
Python-dict order (first occurrence of a key, last duplicate value winning; the
parser below enforces this).  Numbers keep their source lexeme: nothing in the
repository reads a parsed number, so no numeric interpretation is needed. -/
inductive Json where
  | null : Json
  | bool : Bool → Json
  | num : String → Json
  | str : String → Json
  | arr : List Json → Json
  | obj : List (String × Json) → Json

/-- Python dict insertion: an existing key is updated in place (keeping its
position), a new key is appended.  Used to collapse duplicate keys while
parsing an object, as `json.loads` does. -/
def pyInsert : List (String × Json) → String → Json → List (String × Json)
  | [], key, v => [(key, v)]
  | (k, w) :: rest, key, v =>
    if k = key then (k, v) :: rest else (k, w) :: pyInsert rest key v

/-- `d.get(k, default)` on an object member list. -/
def objGetD (ms : List (String × Json)) (key : String) (default : Json) : Json :=
  (assocLookup ms key).getD default

/-- JSON whitespace skipped by `json.loads` between tokens. -/
def isJsonWs (c : Char) : Bool :=
  c = ' ' || c = '\t' || c = '\n' || c = '\r'

/-- Drop leading JSON whitespace. -/
def skipJsonWs : List Char → List Char
  | [] => []
  | c :: rest => if isJsonWs c then skipJsonWs rest else c :: rest

/-- Value of a hex digit, if any. -/
def hexVal (c : Char) : Option Nat :=
  if '0' ≤ c ∧ c ≤ '9' then some (c.toNat - '0'.toNat)
  else if 'a' ≤ c ∧ c ≤ 'f' then some (c.toNat - 'a'.toNat + 10)
  else if 'A' ≤ c ∧ c ≤ 'F' then some (c.toNat - 'A'.toNat + 10)
  else none

/-- Single-character JSON string escapes. -/
def escChar (c : Char) : Option Char :=
  if c = '"' then some '"'
  else if c = '\\' then some '\\'
  else if c = '/' then some '/'
  else if c = 'b' then some '\x08'
  else if c = 'f' then some '\x0c'
  else if c = 'n' then some '\n'
  else if c = 'r' then some '\r'
  else if c = 't' then some '\t'
  else none

/-- Body of a JSON string after the opening quote: returns the decoded
characters and the input remaining after the closing quote.  `fuel` only
bounds recursion depth; the top-level parser supplies more fuel than the
input length, so it never runs out. -/
def parseJStr : Nat → List Char → Option (List Char × List Char)
  | 0, _ => none
  | _, [] => none
  | fuel + 1, c :: rest =>
    if c = '"' then some ([], rest)
    else if c = '\\' then
      match rest with
      | [] => none
      | e :: rest2 =>
        if e = 'u' then
          match rest2 with
          | a :: b :: c3 :: d :: rest3 =>
            match hexVal a, hexVal b, hexVal c3, hexVal d with
            | some ha, some hb, some hc, some hd =>
              match parseJStr fuel rest3 with
              | some (body, rest4) =>
                some (Char.ofNat (((ha * 16 + hb) * 16 + hc) * 16 + hd) :: body, rest4)
              | none => none
            | _, _, _, _ => none
          | _ => none
        else
          match escChar e with
          | some ec =>
            match parseJStr fuel rest2 with
            | some (body, rest3) => some (ec :: body, rest3)
            | none => none
          | none => none
    else
      match parseJStr fuel rest with
      | some (body, rest2) => some (c :: body, rest2)
      | none => none

/-- JSON number lexeme: `-? (0 | [1-9][0-9]*) (. [0-9]+)? ([eE][+-]?[0-9]+)?`.
Returns the lexeme and the rest of the input. -/
def parseNumberLex (cs : List Char) : Option (List Char × List Char) :=
  let (sign, cs1) :=
    match cs with
    | '-' :: t => (['-'], t)
    | _ => (([] : List Char), cs)
  match cs1 with
  | [] => none
  | d :: _ =>
    if d.isDigit then
      let intPart := cs1.takeWhile Char.isDigit
      let afterInt := cs1.dropWhile Char.isDigit
      if intPart.length > 1 ∧ intPart.headD '0' = '0' then none
      else
        let (fracPart, afterFrac) :=
          match afterInt with
          | '.' :: t =>
            let ds := t.takeWhile Char.isDigit
            if ds.isEmpty then ([], afterInt)
            else ('.' :: ds, t.dropWhile Char.isDigit)
          | _ => (([] : List Char), afterInt)
        if fracPart.isEmpty && (match afterInt with | '.' :: _ => true | _ => false) then none
        else
          let (expPart, afterExp) :=
            match afterFrac with
            | e :: t =>
              if e = 'e' ∨ e = 'E' then
                let (sgn, t2) :=
                  match t with
                  | '+' :: t2 => (['+'], t2)
                  | '-' :: t2 => (['-'], t2)
                  | _ => (([] : List Char), t)
                let ds := t2.takeWhile Char.isDigit
                if ds.isEmpty then ([], afterFrac)
                else (e :: (sgn ++ ds), t2.dropWhile Char.isDigit)
              else ([], afterFrac)
            | [] => ([], afterFrac)
          if expPart.isEmpty && (match afterFrac with | e :: _ => e == 'e' || e == 'E' | _ => false) then none
          else some (sign ++ intPart ++ fracPart ++ expPart, afterExp)
    else none

mutual

/-- One JSON value (with leading whitespace), modelling the recursive descent
of `json.loads`; also accepts the CPython extensions `NaN`, `Infinity` and
`-Infinity`. -/
def parseValue : Nat → List Char → Option (Json × List Char)
  | 0, _ => none
  | fuel + 1, cs =>
    match skipJsonWs cs with
    | [] => none
    | c :: rest =>
      if c = '"' then
        match parseJStr fuel rest with
        | some (body, rest2) => some (Json.str (String.mk body), rest2)
        | none => none
      else if c = '[' then
        match skipJsonWs rest with
        | ']' :: rest2 => some (Json.arr [], rest2)
        | cs2 =>
          match parseArrayItems fuel cs2 with
          | some (items, rest2) => some (Json.arr items, rest2)
          | none => none
      else if c = '\x7b' then
        match skipJsonWs rest with
        | '\x7d' :: rest2 => some (Json.obj [], rest2)
        | cs2 =>
          match parseObjItems fuel cs2 with
          | some (pairs, rest2) =>
            some (Json.obj (pairs.foldl (fun acc kv => pyInsert acc kv.1 kv.2) []), rest2)
          | none => none
      else if c = 't' then
        if ['r', 'u', 'e'].isPrefixOf rest then some (Json.bool true, rest.drop 3) else none
      else if c = 'f' then
        if ['a', 'l', 's', 'e'].isPrefixOf rest then some (Json.bool false, rest.drop 4) else none
      else if c = 'n' then
        if ['u', 'l', 'l'].isPrefixOf rest then some (Json.null, rest.drop 3) else none
      else if c = 'N' then
        if ['a', 'N'].isPrefixOf rest then some (Json.num "NaN", rest.drop 2) else none
      else if c = 'I' then
        if ['n', 'f', 'i', 'n', 'i', 't', 'y'].isPrefixOf rest then
          some (Json.num "Infinity", rest.drop 7)
        else none
      else if c = '-' ∧ ['I', 'n', 'f', 'i', 'n', 'i', 't', 'y'].isPrefixOf rest then
        some (Json.num "-Infinity", rest.drop 8)
      else
        match parseNumberLex (c :: rest) with
        | some (lex, rest2) => some (Json.num (String.mk lex), rest2)
        | none => none

/-- Comma-separated array items up to the closing bracket. -/
def parseArrayItems : Nat → List Char → Option (List Json × List Char)
  | 0, _ => none
  | fuel + 1, cs =>
    match parseValue fuel cs with
    | some (v, rest) =>
      match skipJsonWs rest with
      | ',' :: rest2 =>
        match parseArrayItems fuel rest2 with
        | some (items, rest3) => some (v :: items, rest3)
        | none => none
      | ']' :: rest2 => some ([v], rest2)
      | _ => none
    | none => none

/-- Comma-separated object members up to the closing brace. -/
def parseObjItems : Nat → List Char → Option (List (String × Json) × List Char)
  | 0, _ => none
  | fuel + 1, cs =>
    match skipJsonWs cs with
    | '"' :: rest =>
      match parseJStr fuel rest with
      | some (keyBody, rest2) =>
        match skipJsonWs rest2 with
        | ':' :: rest3 =>
          match parseValue fuel rest3 with
          | some (v, rest4) =>
            match skipJsonWs rest4 with
            | ',' :: rest5 =>
              match parseObjItems fuel rest5 with
              | some (pairs, rest6) => some ((String.mk keyBody, v) :: pairs, rest6)
              | none => none
            | '\x7d' :: rest5 => some ([(String.mk keyBody, v)], rest5)
            | _ => none
          | none => none
        | _ => none
      | none => none
    | _ => none

end

/-- `json.loads`: parse a complete JSON document; trailing non-whitespace
makes the parse fail, as in Python. -/
def jsonParse (s : String) : Option Json :=
  match parseValue (s.data.length + 8) s.data with
  | some (j, rest) => if (skipJsonWs rest).isEmpty then some j else none
  | none => none

/-! ## Showtime Extractor (`parse_venue_api_data`)

The Python function first requires the literal marker `Event` in the page,
then extracts the embedded event array with the regex
`"Event":(\[.*?\])\s*,\s*"Date"` (re.DOTALL, so `.` also matches newlines),
parses the captured group with `json.loads`, and scans the resulting events.
-/

/-- Python regex `\s` on the ASCII range (the class used by `\s*` in the
extraction pattern). -/
def isPyRegexWs (c : Char) : Bool :=
  c = ' ' || c = '\t' || c = '\n' || c = '\r' || c = '\x0b' || c = '\x0c'

/-- After the closing `]` of the candidate group, the pattern requires
`\s*,\s*"Date"`. -/
def closeFollows (cs : List Char) : Bool :=
  match cs.dropWhile isPyRegexWs with
  | ',' :: rest => "\"Date\"".data.isPrefixOf (rest.dropWhile isPyRegexWs)
  | _ => false

/-- Lazy matching of `.*?\]` followed by `\s*,\s*"Date"`: the shortest body
wins, exactly as the non-greedy quantifier behaves.  Returns the body
including the closing bracket. -/
def lazyGroupBody : List Char → Option (List Char)
  | [] => none
  | c :: rest =>
    if c = ']' && closeFollows rest then some [']']
    else
      match lazyGroupBody rest with
      | some g => some (c :: g)
      | none => none

/-- Attempt to match `"Event":(\[.*?\])\s*,\s*"Date"` at the head of the
input; on success return capture group 1. -/
def matchEventAt (cs : List Char) : Option (List Char) :=
  if "\"Event\":".data.isPrefixOf cs then
    match cs.drop 8 with
    | '[' :: rest =>
      match lazyGroupBody rest with
      | some g => some ('[' :: g)
      | none => none
    | _ => none
  else none

/-- `re.search`: try the pattern at each position, leftmost match wins. -/
def searchEvent (cs : List Char) : Option (List Char) :=
  match matchEventAt cs with
  | some g => some g
  | none =>
    match cs with
    | [] => none
    | _ :: rest => searchEvent rest

/-- Capture group 1 of `re.search(r'"Event":(\[.*?\])\s*,\s*"Date"', page)`. -/
def findEventRegion (page_content : String) : Option String :=
  (searchEvent page_content.data).map String.mk

/-- Everything up to and including `json.loads`: marker check, regex
extraction, JSON parse, and the requirement that the parsed value is a list
(iterating anything else raises, which the outer `except` turns into the
default result). -/
def extractEvents (page_content : String) : Option (List Json) :=
  if containsSubstr page_content "Event" = false then none
  else
    match findEventRegion page_content with
    | none => none
    | some region =>
      match jsonParse region with
      | some (Json.arr events) => some events
      | _ => none

/-- `==` between a value fetched from JSON and a Python string literal:
equal only when the value is that string (Python `==` across types is
`False`, never an error). -/
def jsonEqStr (j : Json) (s : String) : Bool :=
  match j with
  | Json.str t => t = s
  | _ => false

/-- First pass, innermost loop: scan one `ShowTimes` list.  A show time on
the target date counts immediately, except that a URL containing `prasads`
additionally requires `Attributes == 'PCX SCREEN'` (otherwise that show time
is skipped and the scan continues).  `none` models the `AttributeError`
raised when a list element is not a dict (caught by the outer `except`). -/
def scanShowTimes (target_date url : String) : List Json → Option Bool
  | [] => some false
  | st :: rest =>
    match st with
    | Json.obj ms =>
      if jsonEqStr (objGetD ms "ShowDateCode" (Json.str "")) target_date then
        if containsSubstr url "prasads" then
          if jsonEqStr (objGetD ms "Attributes" Json.null) "PCX SCREEN" then some true
          else scanShowTimes target_date url rest
        else some true
      else scanShowTimes target_date url rest
    | _ => none

/-- First pass, middle loop: scan the `ChildEvents` of a title-matched event,
stopping at the first child with a bookable show time. -/
def scanChildEvents1 (target_date url : String) : List Json → Option Bool
  | [] => some false
  | ce :: rest =>
    match ce with
    | Json.obj ms =>
      match objGetD ms "ShowTimes" (Json.arr []) with
      | Json.arr sts =>
        match scanShowTimes target_date url sts with
        | none => none
        | some true => some true
        | some false => scanChildEvents1 target_date url rest
      | _ => none
    | _ => none

/-- First pass, outer loop: `movie_found` is set on every case-insensitive
`EventTitle` substring match; the loop breaks only once a bookable show time
is found, so later events are still scanned after a dateless match. -/
def scanEvents1 (movie_name target_date url : String) : List Json → Bool → Option (Bool × Bool)
  | [], movie_found => some (movie_found, false)
  | ev :: rest, movie_found =>
    match ev with
    | Json.obj ms =>
      match objGetD ms "EventTitle" (Json.str "") with
      | Json.str event_title =>
        if containsSubstr (strLower event_title) (strLower movie_name) then
          match objGetD ms "ChildEvents" (Json.arr []) with
          | Json.arr ces =>
            match scanChildEvents1 target_date url ces with
            | none => none
            | some true => some (true, true)
            | some false => scanEvents1 movie_name target_date url rest true
          | _ => none
        else scanEvents1 movie_name target_date url rest movie_found
      | _ => none
    | _ => none

/-- Second pass, innermost loop: date check only (no theatre-specific
attribute filter in the `EventName` fallback). -/
def scanShowTimes2 (target_date : String) : List Json → Option Bool
  | [] => some false
  | st :: rest =>
    match st with
    | Json.obj ms =>
      if jsonEqStr (objGetD ms "ShowDateCode" (Json.str "")) target_date then some true
      else scanShowTimes2 target_date rest
    | _ => none

/-- Second pass, middle loop over `ChildEvents`: an `EventName` match sets
`movie_found`; the child loop breaks only when a show time also matched. -/
def scanChildEvents2 (movie_name target_date : String) : List Json → Bool → Option (Bool × Bool)
  | [], movie_found => some (movie_found, false)
  | ce :: rest, movie_found =>
    match ce with
    | Json.obj ms =>
      match objGetD ms "EventName" (Json.str "") with
      | Json.str event_name =>
        if containsSubstr (strLower event_name) (strLower movie_name) then
          match objGetD ms "ShowTimes" (Json.arr []) with
          | Json.arr sts =>
            match scanShowTimes2 target_date sts with
            | none => none
            | some true => some (true, true)
            | some false => scanChildEvents2 movie_name target_date rest true
          | _ => none
        else scanChildEvents2 movie_name target_date rest movie_found
      | _ => none
    | _ => none

/-- Second pass, outer loop: runs only when the first pass found nothing; the
event loop breaks as soon as `movie_found` is set. -/
def scanEvents2 (movie_name target_date : String) : List Json → Option (Bool × Bool)
  | [] => some (false, false)
  | ev :: rest =>
    match ev with
    | Json.obj ms =>
      match objGetD ms "ChildEvents" (Json.arr []) with
      | Json.arr ces =>
        match scanChildEvents2 movie_name target_date ces false with
        | none => none
        | some (true, has) => some (true, has)
        | some (false, _) => scanEvents2 movie_name target_date rest
      | _ => none
    | _ => none

/-- The debug-summary block evaluates `event.get('EventTitle', 'Unknown')` for
every event when the movie was found, so every event must be a dict. -/
def allDicts (events : List Json) : Bool :=
  events.all fun e =>
    match e with
    | Json.obj _ => true
    | _ => false

/-- Both scan passes plus the summary step, with `none` for any uncaught
dynamic-typing error inside the big `try`. -/
def scanVenueEvents (movie_name target_date url : String) (events : List Json) :
    Option (Bool × Bool) :=
  match scanEvents1 movie_name target_date url events false with
  | none => none
  | some r1 =>
    match (if r1.1 then some r1 else scanEvents2 movie_name target_date events) with
    | none => none
    | some r => if r.1 && !allDicts events then none else some r

/-- `parse_venue_api_data(page_content, movie_name, target_date, url)`:
returns `(movie_found, has_showtimes)`; every failure (missing marker, regex
miss, JSON error, or any exception inside the `try`) yields `(False, False)`,
so the function is total and never propagates an exception. -/
def parse_venue_api_data (page_content movie_name target_date url : String) : Bool × Bool :=
  match extractEvents page_content with
  | none => (false, false)
  | some events =>
    match scanVenueEvents movie_name target_date url events with
    | none => (false, false)
    | some r => r

/-! ## URL Metadata Extractor (`extract_theatre_info`) -/

/-- `extract_theatre_info(url)`: theatre name from path segment 4 and a
readable date sliced out of the last segment.  The only statement that can
raise is `parts[4]` (`IndexError` when the split yields fewer than five
parts); string slicing in Python never raises, so a malformed final segment
still produces a (garbled) date rather than the sentinel. -/
def extract_theatre_info (url : String) : String × String :=
  let parts := (splitChar '/' url.data).map String.mk
  match parts.get? 4 with
  | none => ("Unknown Theatre", "Unknown Date")
  | some theatre_part =>
    let date_part := parts.getLastD ""
    let theatre_name :=
      if containsSubstr (strLower theatre_part) "prasads" then "Prasads Multiplex"
      else if containsSubstr (strLower theatre_part) "sudarshan" then "Sudarshan 35mm"
      else String.mk (pyTitle (theatre_part.data.map fun c => if c = '-' then ' ' else c))
    let year := date_part.data.take 4
    let month := (date_part.data.drop 4).take 2
    let day := (date_part.data.drop 6).take 2
    (theatre_name, String.mk (day ++ '/' :: month ++ '/' :: year))

/-! ## Availability Checker (`check_movie`) -/

/-- One availability entry, as appended by `check_movie`
(`{'url': ..., 'theatre': ..., 'date': ...}`). -/
structure AvailabilityResult where
  url : String
  theatre : String
  date : String
deriving DecidableEq

/-- `url.split('/')[-1]`, the date code taken from the URL. -/
def lastSegment (url : String) : String :=
  String.mk ((splitChar '/' url.data).getLastD [])

/-- The corroborating patterns of the fallback plain-text search. -/
def fallbackPatterns (movie_name : String) : List String :=
  ["\"" ++ strLower movie_name ++ "\"",
   "/" ++ strLower movie_name ++ "/",
   "showtimes",
   "book tickets",
   "buy tickets"]

/-- The fallback content search: the movie name occurs case-insensitively and
at least one corroborating pattern occurs in the lowered page. -/
def fallbackMatches (page_content movie_name : String) : Bool :=
  containsSubstr (strLower page_content) (strLower movie_name) &&
    (fallbackPatterns movie_name).any fun p => containsSubstr (strLower page_content) p

/-- The per-URL decision of `check_movie`: extractor result, then the
fallback content search when the movie was not found, then the downgrade
`movie_found and not has_showtimes -> movie_found = False`. -/
def check_url_decision (page_content movie_name url : String) : Bool :=
  let r := parse_venue_api_data page_content movie_name (lastSegment url) url
  let movie_found := r.1
  let has_showtimes := r.2
  let movie_found2 :=
    if movie_found then movie_found
    else if fallbackMatches page_content movie_name then true
    else movie_found
  if movie_found2 && !has_showtimes then false else movie_found2

/-- `check_movie`: sequentially check every URL (the external page fetcher is
the function `fetch`) and append an `AvailabilityResult` for every URL whose
final decision is positive. -/
def check_movie (fetch : String → String) (urls : List String) (movie_name : String) :
    List AvailabilityResult :=
  match urls with
  | [] => []
  | url :: rest =>
    let tail := check_movie fetch rest movie_name
    if check_url_decision (fetch url) movie_name url then
      let info := extract_theatre_info url
      { url := url, theatre := info.1, date := info.2 } :: tail
    else tail

/-! ## Notification tracking (`main_with_tracking.py`)

The tracking file and its backups are modelled by the explicit state
`TrackFS`; the git commit/push performed after a save is an external side
effect with no influence on the checked behaviour and is not modelled.
-/

/-- The file-system state touched by the tracking functions: the contents of
`notification_tracking.json` (`none` when the file does not exist) and the
backup files created so far. -/
structure TrackFS where
  tracking : Option String
  backups : List (String × String)
deriving DecidableEq

/-- The timestamped name a corrupted tracking file is renamed to. -/
def backupFileName (now : String) : String :=
  "notification_tracking.json.backup." ++ now

/-- `load_notification_tracking()`: a missing, empty or whitespace-only file
loads as `{}` without touching the file system; a file whose stripped
contents fail `json.loads` is renamed to a timestamped backup and `{}` is
returned. -/
def load_notification_tracking (fs : TrackFS) (now : String) : Json × TrackFS :=
  match fs.tracking with
  | none => (Json.obj [], fs)
  | some content =>
    if content = "" then (Json.obj [], fs)
    else
      let stripped := pyStrip content
      if stripped = "" then (Json.obj [], fs)
      else
        match jsonParse stripped with
        | some tracking_data => (tracking_data, fs)
        | none =>
          (Json.obj [],
           { tracking := none, backups := fs.backups ++ [(backupFileName now, content)] })

/-- Hex digit for `\u00XX` escapes. -/
def hexDigit (n : Nat) : Char :=
  if n < 10 then Char.ofNat ('0'.toNat + n) else Char.ofNat ('a'.toNat + (n - 10))

/-- JSON string escaping as `json.dump(..., ensure_ascii=False)` performs it:
quote, backslash and control characters are escaped, everything else is
written verbatim. -/
def jsonEscapeChar (c : Char) : List Char :=
  if c = '"' then ['\\', '"']
  else if c = '\\' then ['\\', '\\']
  else if c = '\n' then ['\\', 'n']
  else if c = '\r' then ['\\', 'r']
  else if c = '\t' then ['\\', 't']
  else if c = '\x08' then ['\\', 'b']
  else if c = '\x0c' then ['\\', 'f']
  else if c.toNat < 32 then
    ['\\', 'u', '0', '0', hexDigit (c.toNat / 16), hexDigit (c.toNat % 16)]
  else [c]

/-- A JSON string literal. -/
def jsonQuote (s : String) : String :=
  String.mk ('"' :: (s.data.map jsonEscapeChar).foldr (· ++ ·) ['"'])

/-- Indentation of `2 * level` spaces. -/
def jsonIndent (level : Nat) : String :=
  String.mk (List.replicate (2 * level) ' ')

mutual

/-- `json.dump(..., indent=2, ensure_ascii=False)` of a value at a given
indentation level.  Number lexemes are written back verbatim (the tracking
records the scripts serialise contain no numbers). -/
def jsonDumpVal (level : Nat) : Json → String
  | Json.null => "null"
  | Json.bool b => if b then "true" else "false"
  | Json.num lex => lex
  | Json.str s => jsonQuote s
  | Json.arr [] => "[]"
  | Json.arr (x :: xs) =>
    "[\n" ++ jsonDumpArrItems (level + 1) (x :: xs) ++ "\n" ++ jsonIndent level ++ "]"
  | Json.obj [] => "\x7b\x7d"
  | Json.obj (kv :: kvs) =>
    "\x7b\n" ++ jsonDumpObjItems (level + 1) (kv :: kvs) ++ "\n" ++ jsonIndent level ++ "\x7d"

/-- Comma-and-newline separated array items, each indented. -/
def jsonDumpArrItems (level : Nat) : List Json → String
  | [] => ""
  | [x] => jsonIndent level ++ jsonDumpVal level x
  | x :: y :: rest =>
    jsonIndent level ++ jsonDumpVal level x ++ ",\n" ++ jsonDumpArrItems level (y :: rest)

/-- Comma-and-newline separated object members, each indented. -/
def jsonDumpObjItems (level : Nat) : List (String × Json) → String
  | [] => ""
  | [kv] => jsonIndent level ++ jsonQuote kv.1 ++ ": " ++ jsonDumpVal level kv.2
  | kv :: kv2 :: rest =>
    jsonIndent level ++ jsonQuote kv.1 ++ ": " ++ jsonDumpVal level kv.2 ++ ",\n" ++
      jsonDumpObjItems level (kv2 :: rest)

end

/-- `save_notification_tracking(tracking_data)`: serialise the store back to
the tracking file (the subsequent git add/commit/push is external). -/
def save_notification_tracking (fs : TrackFS) (tracking_data : Json) : TrackFS :=
  { fs with tracking := some (jsonDumpVal 0 tracking_data) }

/-- `create_notification_key(theatre_url, recipient_emails)`: the dedup key
`f"{theatre_name}_{date}_{MOVIE_NAME}"`.  The `recipient_emails` argument is
accepted and ignored, exactly as in the source (the recipient component is
commented out there). -/
def create_notification_key (movie_name theatre_url : String)
    (recipient_emails : List String) : String :=
  let info := extract_theatre_info theatre_url
  info.1 ++ "_" ++ info.2 ++ "_" ++ movie_name

/-- Python `key in tracking_data`.  The loaded store is a dict in every run
the claims describe; `in` on a list or string is also modelled, while on the
remaining JSON values Python would raise a `TypeError` (a path no claim
reaches). -/
def jsonHasKey (tracking_data : Json) (key : String) : Bool :=
  match tracking_data with
  | Json.obj ms => (assocLookup ms key).isSome
  | Json.arr xs => xs.any fun j => jsonEqStr j key
  | Json.str s => containsSubstr s key
  | _ => false

/-- `is_notification_sent(theatre_url, recipient_emails, tracking_data)`. -/
def is_notification_sent (movie_name theatre_url : String)
    (recipient_emails : List String) (tracking_data : Json) : Bool :=
  jsonHasKey tracking_data (create_notification_key movie_name theatre_url recipient_emails)

/-- `[email.strip() for email in recipient_emails.split(',') if email.strip()]`. -/
def splitEmails (recipient_emails : String) : List String :=
  (((splitChar ',' recipient_emails.data).map String.mk).map pyStrip).filter fun e => ¬ e = ""

/-- `mark_notification_sent(theatre_url, recipient_emails, tracking_data)`:
dict assignment of the sent-record under the dedup key (assignment on a
non-dict would raise; no claim reaches that). -/
def mark_notification_sent (movie_name now theatre_url : String)
    (recipient_emails : List String) (tracking_data : Json) : Json :=
  match tracking_data with
  | Json.obj ms =>
    Json.obj (pyInsert ms (create_notification_key movie_name theatre_url recipient_emails)
      (Json.obj [("theatre_url", Json.str theatre_url),
                 ("sent_at", Json.str now),
                 ("movie_name", Json.str movie_name)]))
  | other => other

/-- `filter_new_notifications(available_theatres, tracking_data)`: keep, in
order, the theatres whose URL is configured with at least one non-empty
recipient address and whose dedup key is not yet in the store. -/
def filter_new_notifications (cfg : List (String × String)) (movie_name : String)
    (available_theatres : List AvailabilityResult) (tracking_data : Json) :
    List AvailabilityResult :=
  match available_theatres with
  | [] => []
  | t :: rest =>
    let tail := filter_new_notifications cfg movie_name rest tracking_data
    match assocLookup cfg t.url with
    | none => tail
    | some recipient_emails =>
      if recipient_emails = "" then tail
      else
        let emails := splitEmails recipient_emails
        if emails.isEmpty then tail
        else if is_notification_sent movie_name t.url emails tracking_data then tail
        else t :: tail

/-! ## Notifier (`send_email`, tracking variant) -/

/-- One dispatched message: the Bcc recipient tuple used as the group key,
the composed subject and body, and the theatres the message covers. -/
structure EmailMsg where
  recipients : List String
  subject : String
  content : String
  theatres : List AvailabilityResult
deriving DecidableEq

/-- Insertion into the `email_groups` dict: `tuple(sorted(emails))` keys, an
existing key keeps its position and gets the theatre appended, a new key is
appended at the end (Python dict insertion order). -/
def insertGroup (key : List String) (t : AvailabilityResult) :
    List (List String × List AvailabilityResult) →
      List (List String × List AvailabilityResult)
  | [] => [(key, [t])]
  | (k, l) :: rest =>
    if k = key then (k, l ++ [t]) :: rest else (k, l) :: insertGroup key t rest

/-- Lexicographic code-point comparison on character lists (`<=`), the order
Python uses to compare strings. -/
def charListLe : List Char → List Char → Bool
  | [], _ => true
  | _ :: _, [] => false
  | a :: as, b :: bs =>
    if a = b then charListLe as bs else decide (a.toNat < b.toNat)

/-- Python `s <= t` on strings. -/
def strLeB (s t : String) : Bool :=
  charListLe s.data t.data

/-- Insertion sort step for `sorted(emails)` (code-point order, as Python
compares strings). -/
def insortStr (s : String) : List String → List String
  | [] => [s]
  | t :: rest => if strLeB s t then s :: t :: rest else t :: insortStr s rest

/-- `sorted(emails)`: sorts, keeping duplicates. -/
def sortStrs (l : List String) : List String :=
  l.foldr insortStr []

/-- One iteration of the grouping loop of `send_email`: resolve the theatre's
recipients and insert it under the key `tuple(sorted(emails))`; theatres
without usable recipients are skipped. -/
def addTheatreToGroups (cfg : List (String × String))
    (groups : List (List String × List AvailabilityResult)) (t : AvailabilityResult) :
    List (List String × List AvailabilityResult) :=
  match assocLookup cfg t.url with
  | none => groups
  | some recipient_emails =>
    if recipient_emails = "" then groups
    else
      let emails := splitEmails recipient_emails
      if emails.isEmpty then groups
      else insertGroup (sortStrs emails) t groups

/-- The `email_groups` dict of `send_email`. -/
def buildGroups (cfg : List (String × String)) (theatres : List AvailabilityResult) :
    List (List String × List AvailabilityResult) :=
  theatres.foldl (addTheatreToGroups cfg) []

/-- The subject line composed per group. -/
def composeSubject (theatres : List AvailabilityResult) : String :=
  match theatres with
  | [t] =>
    "PENU TOOFANU thalonchi choosthe... tickets now available at " ++ t.theatre ++
      " on " ++ t.date ++ "!"
  | _ =>
    "PENU TOOFANU thalonchi choosthe... tickets now available at " ++
      toString theatres.length ++ " theatres!"

/-- The enumerated theatre list of a multi-theatre message body. -/
def enumerateTheatres (i : Nat) : List AvailabilityResult → String
  | [] => ""
  | t :: rest =>
    toString i ++ ". " ++ t.theatre ++ " - " ++ t.date ++ "\n   Book here: " ++ t.url ++
      "\n\n" ++ enumerateTheatres (i + 1) rest

/-- The message body composed per group. -/
def composeContent (movie_name : String) (theatres : List AvailabilityResult) : String :=
  let header := "Great news! \x27" ++ movie_name ++ "\x27 tickets are now available!\n\n"
  let body :=
    match theatres with
    | [t] => "Theatre: " ++ t.theatre ++ "\nDate: " ++ t.date ++ "\nBook here: " ++ t.url ++ "\n"
    | _ =>
      "Available at " ++ toString theatres.length ++ " theatres:\n\n" ++
        enumerateTheatres 1 theatres
  header ++ body ++ "\nMovie: " ++ movie_name

/-- After a group's message is sent, every theatre it covers is marked in the
store (re-deriving the recipients from the configuration, as the source
does). -/
def markGroupTheatres (cfg : List (String × String)) (movie_name now : String)
    (theatres : List AvailabilityResult) (tracking_data : Json) : Json :=
  theatres.foldl
    (fun trk t =>
      match assocLookup cfg t.url with
      | none => trk
      | some recipient_emails =>
        if recipient_emails = "" then trk
        else
          let emails := splitEmails recipient_emails
          if emails.isEmpty then trk
          else mark_notification_sent movie_name now t.url emails trk)
    tracking_data

/-- The send loop over `email_groups.items()`: one message per group, in
insertion order, marking the covered theatres after each send (delivery is
assumed to succeed; a delivery failure only skips that group's marks). -/
def dispatchGroups (cfg : List (String × String)) (movie_name now : String) :
    List (List String × List AvailabilityResult) → Json → List EmailMsg × Json
  | [], tracking_data => ([], tracking_data)
  | (recipient_emails, theatres) :: rest, tracking_data =>
    let msg : EmailMsg :=
      { recipients := recipient_emails,
        subject := composeSubject theatres,
        content := composeContent movie_name theatres,
        theatres := theatres }
    let tracking2 := markGroupTheatres cfg movie_name now theatres tracking_data
    let r := dispatchGroups cfg movie_name now rest tracking2
    (msg :: r.1, r.2)

/-- `send_email(available_theatres)` of the tracking variant: load the store,
filter already-notified theatres (returning before any dispatch or save when
nothing is new), validate the sender configuration, group by recipient tuple,
send one message per group and save the updated store once at the end. -/
def send_email (cfg : List (String × String))
    (movie_name sender_email sender_password now : String)
    (fs : TrackFS) (available_theatres : List AvailabilityResult) :
    List EmailMsg × TrackFS :=
  let lr := load_notification_tracking fs now
  let tracking_data := lr.1
  let fs1 := lr.2
  let new_notifications := filter_new_notifications cfg movie_name available_theatres tracking_data
  if new_notifications.isEmpty then ([], fs1)
  else if sender_email = "your_email@gmail.com" ∨ sender_email = "" then ([], fs1)
  else if sender_password = "" ∨ sender_password = "your_email_password" then ([], fs1)
  else
    let email_groups := buildGroups cfg new_notifications
    if email_groups.isEmpty then ([], fs1)
    else
      let dr := dispatchGroups cfg movie_name now email_groups tracking_data
      (dr.1, save_notification_tracking fs1 dr.2)

/-! ## Vocabulary for stating the claims

Total accessor functions over parsed events, used to phrase the claims about
`parse_venue_api_data`, plus the well-typedness predicate under which the
dynamically-typed Python scan cannot raise. -/

/-- Member list of an object, `[]` for any other value. -/
def asObjMembers : Json → List (String × Json)
  | Json.obj ms => ms
  | _ => []

/-- `j.get(key, default)` as a total accessor. -/
def jgetD (j : Json) (key : String) (default : Json) : Json :=
  objGetD (asObjMembers j) key default

/-- The `EventTitle` of an event (empty for a missing or non-string title). -/
def eventTitle (ev : Json) : String :=
  match jgetD ev "EventTitle" (Json.str "") with
  | Json.str s => s
  | _ => ""

/-- The `ChildEvents` list of an event. -/
def eventChildren (ev : Json) : List Json :=
  match jgetD ev "ChildEvents" (Json.arr []) with
  | Json.arr l => l
  | _ => []

/-- The `ShowTimes` list of a child event. -/
def childShowTimes (ce : Json) : List Json :=
  match jgetD ce "ShowTimes" (Json.arr []) with
  | Json.arr l => l
  | _ => []

/-- The case-insensitive substring match of the target movie name against an
`EventTitle`. -/
def titleMatches (movie_name : String) (ev : Json) : Bool :=
  containsSubstr (strLower (eventTitle ev)) (strLower movie_name)

/-- `ShowDateCode == target_date` for one show time. -/
def dateMatches (target_date : String) (st : Json) : Bool :=
  jsonEqStr (jgetD st "ShowDateCode" (Json.str "")) target_date

/-- `Attributes == 'PCX SCREEN'` for one show time. -/
def attrIsPCX (st : Json) : Bool :=
  jsonEqStr (jgetD st "Attributes" Json.null) "PCX SCREEN"

/-- A show time that counts as bookable for the given URL: the date matches,
and for a `prasads` URL the attribute tag additionally equals `PCX SCREEN`. -/
def stPasses (target_date url : String) (st : Json) : Bool :=
  dateMatches target_date st &&
    (if containsSubstr url "prasads" then attrIsPCX st else true)

/-- An event whose title matches and that carries a bookable show time. -/
def evPasses (movie_name target_date url : String) (ev : Json) : Bool :=
  titleMatches movie_name ev &&
    (eventChildren ev).any fun ce => (childShowTimes ce).any (stPasses target_date url)

/-- Some nested show time of the event is on the target date. -/
def eventHasDateShow (target_date : String) (ev : Json) : Bool :=
  (eventChildren ev).any fun ce => (childShowTimes ce).any (dateMatches target_date)

/-- All show times of the event whose date code equals the target date, in
scan order. -/
def eventDateShows (target_date : String) (ev : Json) : List Json :=
  ((eventChildren ev).map fun ce => (childShowTimes ce).filter (dateMatches target_date)).flatten

/-- A show-time entry the scan can read without raising: a dict. -/
def wtShow (st : Json) : Bool :=
  match st with
  | Json.obj _ => true
  | _ => false

/-- A child event the scan can read without raising: a dict whose
`EventName` defaults to or is a string and whose `ShowTimes` defaults to or
is a list of dicts. -/
def wtChild (ce : Json) : Bool :=
  match ce with
  | Json.obj ms =>
    (match objGetD ms "EventName" (Json.str "") with
     | Json.str _ => true
     | _ => false) &&
    (match objGetD ms "ShowTimes" (Json.arr []) with
     | Json.arr sts => sts.all wtShow
     | _ => false)
  | _ => false

/-- An event the scan can read without raising. -/
def wtEvent (ev : Json) : Bool :=
  match ev with
  | Json.obj ms =>
    (match objGetD ms "EventTitle" (Json.str "") with
     | Json.str _ => true
     | _ => false) &&
    (match objGetD ms "ChildEvents" (Json.arr []) with
     | Json.arr ces => ces.all wtChild
     | _ => false)
  | _ => false

/-- A well-typed embedded event array, the shape every real page delivers. -/
def wellTypedEvents (events : List Json) : Bool :=
  events.all wtEvent

/-! ## Derived predicates and concrete inputs used by the claims -/

/-- The per-result classification performed by `filter_new_notifications`:
"new" exactly when the URL is configured with at least one non-empty
recipient address and the dedup key is not yet in the store. -/
def is_new_notification (cfg : List (String × String)) (movie_name : String)
    (tracking_data : Json) (t : AvailabilityResult) : Bool :=
  match assocLookup cfg t.url with
  | none => false
  | some recipient_emails =>
    !(splitEmails recipient_emails).isEmpty &&
      !is_notification_sent movie_name t.url (splitEmails recipient_emails) tracking_data

/-- The grouping key `tuple(sorted(emails))` a theatre contributes to in
`send_email`, or `none` when the theatre has no usable recipients. -/
def groupKeyOf (cfg : List (String × String)) (t : AvailabilityResult) :
    Option (List String) :=
  match assocLookup cfg t.url with
  | none => none
  | some recipient_emails =>
    if recipient_emails = "" then none
    else
      let emails := splitEmails recipient_emails
      if emails.isEmpty then none else some (sortStrs emails)

/-- Markup with a single matching event whose show time is on the target date
with `Attributes: null` (the scenario of the spec). -/
def c3Markup : String :=
  "\"Event\":[\x7b\"EventTitle\":\"Kingdom\",\"ChildEvents\":[\x7b\"ShowTimes\":[\x7b\"ShowDateCode\":\"20250730\",\"Attributes\":null\x7d]\x7d]\x7d] ,\"Date\""

/-- The events embedded in `c3Markup`. -/
def c3Events : List Json :=
  (extractEvents c3Markup).getD []

/-- Markup with two title-matching events: the first has a single show time
on the target date with `Attributes: null`, the second a show time on the
target date with `Attributes: "PCX SCREEN"`. -/
def c1Markup : String :=
  "\"Event\":[\x7b\"EventTitle\":\"Kingdom\",\"ChildEvents\":[\x7b\"ShowTimes\":[\x7b\"ShowDateCode\":\"20250730\",\"Attributes\":null\x7d]\x7d]\x7d,\x7b\"EventTitle\":\"Kingdom 2\",\"ChildEvents\":[\x7b\"ShowTimes\":[\x7b\"ShowDateCode\":\"20250730\",\"Attributes\":\"PCX SCREEN\"\x7d]\x7d]\x7d],\"Date\""

/-- A booking URL of the venue chain that activates the attribute filter. -/
def c1Url : String :=
  "https://in.bookmyshow.com/cinemas/hyderabad/prasads-multiplex-hyderabad/buytickets/PRHN/20250730"

/-- The events embedded in `c1Markup`. -/
def c1Events : List Json :=
  (extractEvents c1Markup).getD []

/-- Markup with a single matching event whose only date-matching show time
has `Attributes: null` (not the required tag). -/
def c1wMarkup : String :=
  "\"Event\":[\x7b\"EventTitle\":\"Kingdom\",\"ChildEvents\":[\x7b\"ShowTimes\":[\x7b\"ShowDateCode\":\"20250730\",\"Attributes\":null\x7d]\x7d]\x7d],\"Date\""

/-- The events embedded in `c1wMarkup`. -/
def c1wEvents : List Json :=
  (extractEvents c1wMarkup).getD []

/-- Markup whose first title-matching event has no show time on the target
date `20250730` while a later title-matching event has one. -/
def c10Markup : String :=
  "\"Event\":[\x7b\"EventTitle\":\"Kingdom\",\"ChildEvents\":[\x7b\"ShowTimes\":[\x7b\"ShowDateCode\":\"20250801\"\x7d]\x7d]\x7d,\x7b\"EventTitle\":\"Kingdom 4K\",\"ChildEvents\":[\x7b\"ShowTimes\":[\x7b\"ShowDateCode\":\"20250730\"\x7d]\x7d]\x7d],\"Date\""

/-- The events embedded in `c10Markup`. -/
def c10Events : List Json :=
  (extractEvents c10Markup).getD []

/-- The first title-matching event of `c10Events`. -/
def c10First : Json :=
  (c10Events.find? (titleMatches "Kingdom")).getD Json.null

/-- Page text containing the movie name and a corroborating keyword but no
embedded event data. -/
def c2Content : String :=
  "showtimes kingdom"

/-- A booking URL whose metadata resolves to the Prasads alias. -/
def c5Url : String :=
  "x/cinemas/hyd/venue/prasads-multiplex/20250730"

/-- The availability result `check_movie` produces for `c5Url`. -/
def c5Result : AvailabilityResult :=
  { url := c5Url, theatre := "Prasads Multiplex", date := "30/07/2025" }

/-- A tracking file that already records the dedup key of `c5Result`. -/
def c5Content : String :=
  "\x7b\"Prasads Multiplex_30/07/2025_Kingdom\": \x7b\"movie_name\": \"Kingdom\"\x7d\x7d"

/-- The file-system state holding `c5Content`. -/
def c5FS : TrackFS :=
  { tracking := some c5Content, backups := [] }

/-- The member list `json.loads` reads out of `c5Content`. -/
def c5Store : List (String × Json) :=
  match jsonParse (pyStrip c5Content) with
  | some (Json.obj ms) => ms
  | _ => []

/-- Configuration mapping `c5Url` to one recipient. -/
def c5Cfg : List (String × String) :=
  [(c5Url, "a@x.com")]

/-- First URL of the grouping counterexample. -/
def c8u1 : String :=
  "a/b/c/d/e/20250101"

/-- Second URL of the grouping counterexample. -/
def c8u2 : String :=
  "a/b/c/d/e/20250102"

/-- Configuration where both URLs have the same recipient **set** but one
lists the address twice. -/
def c8cfg : List (String × String) :=
  [(c8u1, "a@x.com, a@x.com"), (c8u2, "a@x.com")]

/-- Availability result for `c8u1`. -/
def c8r1 : AvailabilityResult :=
  { url := c8u1, theatre := "E", date := "01/01/2025" }

/-- Availability result for `c8u2`. -/
def c8r2 : AvailabilityResult :=
  { url := c8u2, theatre := "E", date := "02/01/2025" }

/-- Configuration where both URLs carry the same recipient multiset in
different listing orders. -/
def c8cfgB : List (String × String) :=
  [(c8u1, "b@x.com,a@x.com"), (c8u2, "a@x.com, b@x.com")]

/-- Collapse adjacent duplicates of a sorted list: the de-duplicated
recipient set the claim says the partition key is built from. -/
def dedupStrs : List String → List String
  | [] => []
  | [s] => [s]
  | s :: t :: rest =>
    if s = t then dedupStrs (t :: rest) else s :: dedupStrs (t :: rest)

/-! ## Characterization of the first scan pass -/

/-- On a well-typed show-time list, the first-pass inner loop returns exactly
"some show time passes the date (and, for `prasads` URLs, attribute)
check". -/
theorem scanShowTimes_char (target_date url : String) (sts : List Json)
    (h : sts.all wtShow = true) :
    scanShowTimes target_date url sts = some (sts.any (stPasses target_date url)) := by
  induction sts with
  | nil => rfl
  | cons st rest ih =>
    rw [List.all_cons, Bool.and_eq_true] at h
    obtain ⟨hst, hrest⟩ := h
    have ihr := ih hrest
    cases st with
    | obj ms =>
      cases hdm : jsonEqStr (objGetD ms "ShowDateCode" (Json.str "")) target_date with
      | false =>
        simp [scanShowTimes, List.any_cons, stPasses, dateMatches, jgetD, asObjMembers,
          hdm, ihr]
      | true =>
        cases hpr : containsSubstr url "prasads" with
        | false =>
          simp [scanShowTimes, List.any_cons, stPasses, dateMatches, jgetD, asObjMembers,
            hdm, hpr]
        | true =>
          cases hat : jsonEqStr (objGetD ms "Attributes" Json.null) "PCX SCREEN" with
          | false =>
            simp [scanShowTimes, List.any_cons, stPasses, dateMatches, attrIsPCX, jgetD,
              asObjMembers, hdm, hpr, hat, ihr]
          | true =>
            simp [scanShowTimes, List.any_cons, stPasses, dateMatches, attrIsPCX, jgetD,
              asObjMembers, hdm, hpr, hat]
    | null => simp [wtShow] at hst
    | bool b => simp [wtShow] at hst
    | num s => simp [wtShow] at hst
    | str s => simp [wtShow] at hst
    | arr l => simp [wtShow] at hst

/-- On well-typed child events, the first-pass middle loop returns exactly
"some child has a passing show time". -/
theorem scanChildEvents1_char (target_date url : String) (ces : List Json)
    (h : ces.all wtChild = true) :
    scanChildEvents1 target_date url ces =
      some (ces.any fun ce => (childShowTimes ce).any (stPasses target_date url)) := by
  induction ces with
  | nil => rfl
  | cons ce rest ih =>
    rw [List.all_cons, Bool.and_eq_true] at h
    obtain ⟨hce, hrest⟩ := h
    have ihr := ih hrest
    cases ce with
    | obj ms =>
      cases hS : objGetD ms "ShowTimes" (Json.arr []) with
      | arr sts =>
        have hall : sts.all wtShow = true := by
          simp [wtChild, hS] at hce
          exact List.all_eq_true.mpr hce.2
        have hinner := scanShowTimes_char target_date url sts hall
        cases hb : sts.any (stPasses target_date url) with
        | true =>
          simp [scanChildEvents1, hS, hinner, hb, List.any_cons, childShowTimes, jgetD,
            asObjMembers]
        | false =>
          simp [scanChildEvents1, hS, hinner, hb, List.any_cons, childShowTimes, jgetD,
            asObjMembers, ihr]
      | null => simp [wtChild, hS] at hce
      | bool b => simp [wtChild, hS] at hce
      | num s => simp [wtChild, hS] at hce
      | str s => simp [wtChild, hS] at hce
      | obj ms2 => simp [wtChild, hS] at hce
    | null => simp [wtChild] at hce
    | bool b => simp [wtChild] at hce
    | num s => simp [wtChild] at hce
    | str s => simp [wtChild] at hce
    | arr l => simp [wtChild] at hce

/-- On a well-typed event array, the first pass computes `movie_found` as
"some title matches" and `has_showtimes` as "some title-matching event has a
passing show time". -/
theorem scanEvents1_char (movie_name target_date url : String) (events : List Json)
    (h : wellTypedEvents events = true) : ∀ movie_found : Bool,
    scanEvents1 movie_name target_date url events movie_found =
      some (movie_found || events.any (titleMatches movie_name),
            events.any (evPasses movie_name target_date url)) := by
  induction events with
  | nil => intro mf; simp [scanEvents1]
  | cons ev rest ih =>
    intro mf
    rw [wellTypedEvents, List.all_cons, Bool.and_eq_true] at h
    obtain ⟨hev, hrest⟩ := h
    have ihr := ih hrest
    cases ev with
    | obj ms =>
      cases hT : objGetD ms "EventTitle" (Json.str "") with
      | str event_title =>
        cases hm : containsSubstr (strLower event_title) (strLower movie_name) with
        | false =>
          have hm2 : titleMatches movie_name (Json.obj ms) = false := by
            simp [titleMatches, eventTitle, jgetD, asObjMembers, hT, hm]
          have hp2 : evPasses movie_name target_date url (Json.obj ms) = false := by
            simp [evPasses, hm2]
          simp [scanEvents1, hT, hm, List.any_cons, hm2, hp2, ihr]
        | true =>
          have hm2 : titleMatches movie_name (Json.obj ms) = true := by
            simp [titleMatches, eventTitle, jgetD, asObjMembers, hT, hm]
          cases hC : objGetD ms "ChildEvents" (Json.arr []) with
          | arr ces =>
            have hall : ces.all wtChild = true := by
              simp [wtEvent, hT, hC] at hev
              exact List.all_eq_true.mpr hev
            have hmid := scanChildEvents1_char target_date url ces hall
            have hchild : (eventChildren (Json.obj ms)) = ces := by
              simp [eventChildren, jgetD, asObjMembers, hC]
            cases hb : ces.any fun ce => (childShowTimes ce).any (stPasses target_date url) with
            | true =>
              have hp2 : evPasses movie_name target_date url (Json.obj ms) = true := by
                simp [evPasses, hm2, hchild, hb]
              simp [scanEvents1, hT, hm, hC, hmid, hb, List.any_cons, hm2, hp2]
            | false =>
              have hp2 : evPasses movie_name target_date url (Json.obj ms) = false := by
                simp [evPasses, hm2, hchild, hb]
              simp [scanEvents1, hT, hm, hC, hmid, hb, List.any_cons, hm2, hp2, ihr]
          | null => simp [wtEvent, hT, hC] at hev
          | bool b => simp [wtEvent, hT, hC] at hev
          | num s => simp [wtEvent, hT, hC] at hev
          | str s => simp [wtEvent, hT, hC] at hev
          | obj ms2 => simp [wtEvent, hT, hC] at hev
      | null => simp [wtEvent, hT] at hev
      | bool b => simp [wtEvent, hT] at hev
      | num s => simp [wtEvent, hT] at hev
      | arr l => simp [wtEvent, hT] at hev
      | obj ms2 => simp [wtEvent, hT] at hev
    | null => simp [wtEvent] at hev
    | bool b => simp [wtEvent] at hev
    | num s => simp [wtEvent] at hev
    | str s => simp [wtEvent] at hev
    | arr l => simp [wtEvent] at hev

/-- Well-typed events are all dicts, so the debug-summary step cannot
raise. -/
theorem wellTyped_allDicts (events : List Json) (h : wellTypedEvents events = true) :
    allDicts events = true := by
  rw [wellTypedEvents, List.all_eq_true] at h
  rw [allDicts, List.all_eq_true]
  intro e he
  have := h e he
  cases e <;> simp_all [wtEvent]

/-- On a well-typed event array containing a title match, the whole extractor
returns `movie_found = true` and `has_showtimes` as computed by the first
pass. -/
theorem parse_of_extract (page_content movie_name target_date url : String)
    (events : List Json)
    (hex : extractEvents page_content = some events)
    (hwt : wellTypedEvents events = true)
    (hfound : events.any (titleMatches movie_name) = true) :
    parse_venue_api_data page_content movie_name target_date url =
      (true, events.any (evPasses movie_name target_date url)) := by
  have h1 := scanEvents1_char movie_name target_date url events hwt false
  rw [Bool.false_or, hfound] at h1
  have hd := wellTyped_allDicts events hwt
  simp [parse_venue_api_data, hex, scanVenueEvents, h1, hd]

/-! ## Claim theorems: Showtime Extractor -/

/-- C3: for every markup whose embedded event array contains an event whose
title case-insensitively contains the movie name and which has a child event
with a show time on the target date, with the theatre-specific filter
inactive (URL without `prasads`), the extractor returns `(true, true)`
irrespective of the show times' attributes. -/
theorem primary_match_success (page_content movie_name target_date url : String)
    (events : List Json)
    (hex : extractEvents page_content = some events)
    (hwt : wellTypedEvents events = true)
    (hnp : containsSubstr url "prasads" = false)
    (hev : (events.any fun ev =>
        titleMatches movie_name ev && eventHasDateShow target_date ev) = true) :
    parse_venue_api_data page_content movie_name target_date url = (true, true) := by
  have hfound : events.any (titleMatches movie_name) = true := by
    rw [List.any_eq_true] at hev ⊢
    obtain ⟨ev, hm, hp⟩ := hev
    rw [Bool.and_eq_true] at hp
    exact ⟨ev, hm, hp.1⟩
  have hmain := parse_of_extract page_content movie_name target_date url events hex hwt hfound
  have hpass : events.any (evPasses movie_name target_date url) = true := by
    rw [List.any_eq_true] at hev ⊢
    obtain ⟨ev, hm, hp⟩ := hev
    rw [Bool.and_eq_true] at hp
    refine ⟨ev, hm, ?_⟩
    rw [evPasses, Bool.and_eq_true]
    refine ⟨hp.1, ?_⟩
    have h2 := hp.2
    rw [eventHasDateShow, List.any_eq_true] at h2
    rw [List.any_eq_true]
    obtain ⟨ce, hce, hsts⟩ := h2
    refine ⟨ce, hce, ?_⟩
    rw [List.any_eq_true] at hsts ⊢
    obtain ⟨st, hst, hd⟩ := hsts
    exact ⟨st, hst, by rw [stPasses, hnp]; simp [hd]⟩
  rw [hmain, hpass]

/-- Witness for C3: the spec's own scenario (`Kingdom`, date `20250730`,
`Attributes: null`, non-filtered theatre) evaluates to `(true, true)`. -/
theorem primary_match_success_witness :
    parse_venue_api_data c3Markup "Kingdom" "20250730" "https://example.com/theatre" =
      (true, true) :=
  primary_match_success c3Markup "Kingdom" "20250730" "https://example.com/theatre"
    c3Events rfl rfl rfl rfl

/-- C10: when the first title-matching event has no show time passing the
date (and, where active, attribute) check, the scan continues: the extractor
reports the movie found, and reports a bookable show time exactly when some
title-matching event anywhere in the array has a passing show time. -/
theorem scan_continues_past_dateless (page_content movie_name target_date url : String)
    (events : List Json) (ev0 : Json)
    (hex : extractEvents page_content = some events)
    (hwt : wellTypedEvents events = true)
    (hfirst : events.find? (titleMatches movie_name) = some ev0)
    (hnopass : ((eventChildren ev0).any fun ce =>
        (childShowTimes ce).any (stPasses target_date url)) = false) :
    parse_venue_api_data page_content movie_name target_date url =
      (true, events.any (evPasses movie_name target_date url)) := by
  have hmem := List.mem_of_find?_eq_some hfirst
  have hp : titleMatches movie_name ev0 = true := List.find?_some hfirst
  exact parse_of_extract page_content movie_name target_date url events hex hwt
    (List.any_eq_true.mpr ⟨ev0, hmem, hp⟩)

/-- Witness for C10: the first `Kingdom` event is dateless, the second
matching event has the target date, and the result is `(true, true)`. -/
theorem scan_continues_past_dateless_witness :
    parse_venue_api_data c10Markup "Kingdom" "20250730" "u" = (true, true) := by
  have h := scan_continues_past_dateless c10Markup "Kingdom" "20250730" "u"
    c10Events c10First rfl rfl rfl rfl
  exact h.trans rfl

/-- Counterexample to C1 as stated: the claim quantifies existentially over
one title-matching event whose only date-matching show time lacks the
`PCX SCREEN` tag, and predicts `(true, false)`; with a second title-matching
event that does carry the tag, the code returns `(true, true)` although
every hypothesis of the claim holds. -/
theorem prasads_filter_claim_cex :
    extractEvents c1Markup = some c1Events ∧
    wellTypedEvents c1Events = true ∧
    containsSubstr c1Url "prasads" = true ∧
    (c1Events.any fun ev =>
      titleMatches "Kingdom" ev &&
        (match eventDateShows "20250730" ev with
         | [st] => !attrIsPCX st
         | _ => false)) = true ∧
    parse_venue_api_data c1Markup "Kingdom" "20250730" c1Url ≠ (true, false) ∧
    parse_venue_api_data c1Markup "Kingdom" "20250730" c1Url = (true, true) :=
  ⟨rfl, rfl, rfl, rfl, by decide, rfl⟩

/-- C1 amended: with the filter active, the extractor returns
`(true, false)` when **every** title-matching event's date-matching show
times all lack the exact `PCX SCREEN` tag (in particular when the
title-matching event with its single untagged date show time is the only
one). -/
theorem prasads_filter_amended (page_content movie_name target_date url : String)
    (events : List Json)
    (hex : extractEvents page_content = some events)
    (hwt : wellTypedEvents events = true)
    (hpr : containsSubstr url "prasads" = true)
    (hfound : events.any (titleMatches movie_name) = true)
    (hall : ∀ ev ∈ events, titleMatches movie_name ev = true →
      ∀ st ∈ eventDateShows target_date ev, attrIsPCX st = false) :
    parse_venue_api_data page_content movie_name target_date url = (true, false) := by
  have hmain := parse_of_extract page_content movie_name target_date url events hex hwt hfound
  have hpass : events.any (evPasses movie_name target_date url) = false := by
    cases hb : events.any (evPasses movie_name target_date url) with
    | false => rfl
    | true =>
      exfalso
      rw [List.any_eq_true] at hb
      obtain ⟨ev, hmem, hp⟩ := hb
      rw [evPasses, Bool.and_eq_true] at hp
      obtain ⟨hm, hc⟩ := hp
      rw [List.any_eq_true] at hc
      obtain ⟨ce, hce, hsts⟩ := hc
      rw [List.any_eq_true] at hsts
      obtain ⟨st, hst, hpass1⟩ := hsts
      rw [stPasses, hpr] at hpass1
      rw [if_pos rfl, Bool.and_eq_true] at hpass1
      obtain ⟨hdm, hat⟩ := hpass1
      have hstin : st ∈ eventDateShows target_date ev := by
        rw [eventDateShows, List.mem_flatten]
        exact ⟨(childShowTimes ce).filter (dateMatches target_date),
          List.mem_map_of_mem _ hce, List.mem_filter.mpr ⟨hst, hdm⟩⟩
      have := hall ev hmem hm st hstin
      rw [this] at hat
      exact Bool.false_ne_true hat
  rw [hmain, hpass]

/-- Witness for the amended C1: one matching event, one date-matching show
time with `Attributes: null`, a `prasads` URL, result `(true, false)`. -/
theorem prasads_filter_amended_witness :
    parse_venue_api_data c1wMarkup "Kingdom" "20250730" c1Url = (true, false) :=
  prasads_filter_amended c1wMarkup "Kingdom" "20250730" c1Url c1wEvents
    rfl rfl rfl rfl (by decide)

/-- C4: for every markup, a missing `Event` marker, a failed regex
extraction, or an unparseable extracted region each yield `(false, false)`;
the embedded function is total, mirroring the outer `try/except` that keeps
any exception from reaching the caller. -/
theorem extraction_failure_total (page_content movie_name target_date url : String) :
    (containsSubstr page_content "Event" = false →
      parse_venue_api_data page_content movie_name target_date url = (false, false)) ∧
    (findEventRegion page_content = none →
      parse_venue_api_data page_content movie_name target_date url = (false, false)) ∧
    (∀ region, findEventRegion page_content = some region → jsonParse region = none →
      parse_venue_api_data page_content movie_name target_date url = (false, false)) := by
  refine ⟨?_, ?_, ?_⟩
  · intro h
    simp [parse_venue_api_data, extractEvents, h]
  · intro h
    cases hc : containsSubstr page_content "Event" <;>
      simp [parse_venue_api_data, extractEvents, hc, h]
  · intro region h1 h2
    cases hc : containsSubstr page_content "Event" <;>
      simp [parse_venue_api_data, extractEvents, hc, h1, h2]

/-- Witness for C4: a markup without the marker, one where the regex finds no
region, and one whose extracted region `[}]` is not valid JSON. -/
theorem extraction_failure_total_witness :
    parse_venue_api_data "hello" "m" "d" "u" = (false, false) ∧
    parse_venue_api_data "Event with no array" "m" "d" "u" = (false, false) ∧
    parse_venue_api_data "\"Event\":[\x7d] ,\"Date\"" "m" "d" "u" = (false, false) :=
  ⟨(extraction_failure_total "hello" "m" "d" "u").1 rfl,
   (extraction_failure_total "Event with no array" "m" "d" "u").2.1 rfl,
   (extraction_failure_total "\"Event\":[\x7d] ,\"Date\"" "m" "d" "u").2.2 "[\x7d]" rfl rfl⟩

/-! ## Claim theorems: URL Metadata Extractor -/

/-- Counterexample to C9 as stated: a URL whose trailing date segment is the
non-numeric `banana` does **not** yield the sentinel pair; Python string
slicing never raises, so the code returns a title-cased name and a date
assembled from slices of `banana`.  Only the too-few-segments case (an
`IndexError` on `parts[4]`) produces the sentinel. -/
theorem url_metadata_claim_cex :
    "banana".data.all Char.isDigit = false ∧
    extract_theatre_info "a/b/c/d/banana" = ("Banana", "/na/bana") ∧
    extract_theatre_info "a/b/c/d/banana" ≠ ("Unknown Theatre", "Unknown Date") :=
  ⟨rfl, rfl, by decide⟩

/-- C9 amended: a URL with fewer than five `/`-separated segments makes
`parts[4]` raise, which the handler turns into the sentinel pair
`("Unknown Theatre", "Unknown Date")`; the embedded function is total, so
nothing propagates.  A non-numeric trailing segment is not detected and
yields sliced text instead of the sentinel. -/
theorem url_metadata_amended (url : String)
    (h : (splitChar '/' url.data).length < 5) :
    extract_theatre_info url = ("Unknown Theatre", "Unknown Date") := by
  have hnone : ((splitChar '/' url.data).map String.mk).get? 4 = none := by
    rw [List.get?_eq_none, List.length_map]
    omega
  rw [extract_theatre_info, hnone]

/-- Witness for the amended C9: a URL with a single segment. -/
theorem url_metadata_amended_witness :
    (splitChar '/' "abc".data).length < 5 ∧
    extract_theatre_info "abc" = ("Unknown Theatre", "Unknown Date") :=
  ⟨by decide, url_metadata_amended "abc" (by decide)⟩

/-! ## Claim theorems: Availability Checker -/

/-- The first pass never reports a show time without reporting the movie. -/
theorem scanEvents1_snd_fst (movie_name target_date url : String) :
    ∀ (events : List Json) (mf : Bool) (r : Bool × Bool),
      scanEvents1 movie_name target_date url events mf = some r → r.2 = true →
        r.1 = true := by
  intro events
  induction events with
  | nil =>
    intro mf r h h2
    simp only [scanEvents1, Option.some.injEq] at h
    rw [← h] at h2
    simp at h2
  | cons ev rest ih =>
    intro mf r h h2
    cases ev with
    | null => exact Option.noConfusion (by simpa only [scanEvents1] using h)
    | bool b => exact Option.noConfusion (by simpa only [scanEvents1] using h)
    | num s => exact Option.noConfusion (by simpa only [scanEvents1] using h)
    | str s => exact Option.noConfusion (by simpa only [scanEvents1] using h)
    | arr l => exact Option.noConfusion (by simpa only [scanEvents1] using h)
    | obj ms =>
      cases hT : objGetD ms "EventTitle" (Json.str "") with
      | str event_title =>
        cases hm : containsSubstr (strLower event_title) (strLower movie_name) with
        | false =>
          simp only [scanEvents1, hT, hm, Bool.false_eq_true, if_false] at h
          exact ih mf r h h2
        | true =>
          cases hC : objGetD ms "ChildEvents" (Json.arr []) with
          | arr ces =>
            cases hs : scanChildEvents1 target_date url ces with
            | none =>
              exact Option.noConfusion (by simpa only [scanEvents1, hT, hm, if_true, hC, hs] using h)
            | some b =>
              cases b with
              | false =>
                simp only [scanEvents1, hT, hm, if_true, hC, hs] at h
                exact ih true r h h2
              | true =>
                simp only [scanEvents1, hT, hm, if_true, hC, hs, Option.some.injEq] at h
                rw [← h]
          | null =>
            exact Option.noConfusion (by simpa only [scanEvents1, hT, hm, if_true, hC] using h)
          | bool b =>
            exact Option.noConfusion (by simpa only [scanEvents1, hT, hm, if_true, hC] using h)
          | num s =>
            exact Option.noConfusion (by simpa only [scanEvents1, hT, hm, if_true, hC] using h)
          | str s =>
            exact Option.noConfusion (by simpa only [scanEvents1, hT, hm, if_true, hC] using h)
          | obj ms2 =>
            exact Option.noConfusion (by simpa only [scanEvents1, hT, hm, if_true, hC] using h)
      | null => exact Option.noConfusion (by simpa only [scanEvents1, hT] using h)
      | bool b => exact Option.noConfusion (by simpa only [scanEvents1, hT] using h)
      | num s => exact Option.noConfusion (by simpa only [scanEvents1, hT] using h)
      | arr l => exact Option.noConfusion (by simpa only [scanEvents1, hT] using h)
      | obj ms2 => exact Option.noConfusion (by simpa only [scanEvents1, hT] using h)

/-- The second pass's child loop never reports a show time without reporting
the movie. -/
theorem scanChildEvents2_snd_fst (movie_name target_date : String) :
    ∀ (ces : List Json) (mf : Bool) (r : Bool × Bool),
      scanChildEvents2 movie_name target_date ces mf = some r → r.2 = true →
        r.1 = true := by
  intro ces
  induction ces with
  | nil =>
    intro mf r h h2
    simp only [scanChildEvents2, Option.some.injEq] at h
    rw [← h] at h2
    simp at h2
  | cons ce rest ih =>
    intro mf r h h2
    cases ce with
    | null => exact Option.noConfusion (by simpa only [scanChildEvents2] using h)
    | bool b => exact Option.noConfusion (by simpa only [scanChildEvents2] using h)
    | num s => exact Option.noConfusion (by simpa only [scanChildEvents2] using h)
    | str s => exact Option.noConfusion (by simpa only [scanChildEvents2] using h)
    | arr l => exact Option.noConfusion (by simpa only [scanChildEvents2] using h)
    | obj ms =>
      cases hN : objGetD ms "EventName" (Json.str "") with
      | str event_name =>
        cases hm : containsSubstr (strLower event_name) (strLower movie_name) with
        | false =>
          simp only [scanChildEvents2, hN, hm, Bool.false_eq_true, if_false] at h
          exact ih mf r h h2
        | true =>
          cases hS : objGetD ms "ShowTimes" (Json.arr []) with
          | arr sts =>
            cases hs : scanShowTimes2 target_date sts with
            | none =>
              exact Option.noConfusion
                (by simpa only [scanChildEvents2, hN, hm, if_true, hS, hs] using h)
            | some b =>
              cases b with
              | false =>
                simp only [scanChildEvents2, hN, hm, if_true, hS, hs] at h
                exact ih true r h h2
              | true =>
                simp only [scanChildEvents2, hN, hm, if_true, hS, hs, Option.some.injEq] at h
                rw [← h]
          | null =>
            exact Option.noConfusion (by simpa only [scanChildEvents2, hN, hm, if_true, hS] using h)
          | bool b =>
            exact Option.noConfusion (by simpa only [scanChildEvents2, hN, hm, if_true, hS] using h)
          | num s =>
            exact Option.noConfusion (by simpa only [scanChildEvents2, hN, hm, if_true, hS] using h)
          | str s =>
            exact Option.noConfusion (by simpa only [scanChildEvents2, hN, hm, if_true, hS] using h)
          | obj ms2 =>
            exact Option.noConfusion (by simpa only [scanChildEvents2, hN, hm, if_true, hS] using h)
      | null => exact Option.noConfusion (by simpa only [scanChildEvents2, hN] using h)
      | bool b => exact Option.noConfusion (by simpa only [scanChildEvents2, hN] using h)
      | num s => exact Option.noConfusion (by simpa only [scanChildEvents2, hN] using h)
      | arr l => exact Option.noConfusion (by simpa only [scanChildEvents2, hN] using h)
      | obj ms2 => exact Option.noConfusion (by simpa only [scanChildEvents2, hN] using h)

/-- The second pass never reports a show time without reporting the movie. -/
theorem scanEvents2_snd_fst (movie_name target_date : String) :
    ∀ (events : List Json) (r : Bool × Bool),
      scanEvents2 movie_name target_date events = some r → r.2 = true → r.1 = true := by
  intro events
  induction events with
  | nil =>
    intro r h h2
    simp only [scanEvents2, Option.some.injEq] at h
    rw [← h] at h2
    simp at h2
  | cons ev rest ih =>
    intro r h h2
    cases ev with
    | null => exact Option.noConfusion (by simpa only [scanEvents2] using h)
    | bool b => exact Option.noConfusion (by simpa only [scanEvents2] using h)
    | num s => exact Option.noConfusion (by simpa only [scanEvents2] using h)
    | str s => exact Option.noConfusion (by simpa only [scanEvents2] using h)
    | arr l => exact Option.noConfusion (by simpa only [scanEvents2] using h)
    | obj ms =>
      cases hC : objGetD ms "ChildEvents" (Json.arr []) with
      | arr ces =>
        cases hs : scanChildEvents2 movie_name target_date ces false with
        | none => exact Option.noConfusion (by simpa only [scanEvents2, hC, hs] using h)
        | some p =>
          obtain ⟨pf, ps⟩ := p
          cases pf with
          | false =>
            simp only [scanEvents2, hC, hs] at h
            exact ih r h h2
          | true =>
            simp only [scanEvents2, hC, hs, Option.some.injEq] at h
            rw [← h]
      | null => exact Option.noConfusion (by simpa only [scanEvents2, hC] using h)
      | bool b => exact Option.noConfusion (by simpa only [scanEvents2, hC] using h)
      | num s => exact Option.noConfusion (by simpa only [scanEvents2, hC] using h)
      | str s => exact Option.noConfusion (by simpa only [scanEvents2, hC] using h)
      | obj ms2 => exact Option.noConfusion (by simpa only [scanEvents2, hC] using h)

/-- `parse_venue_api_data` never returns `(False, True)`: a bookable show
time is only ever reported together with the movie. -/
theorem parse_snd_fst (page_content movie_name target_date url : String) :
    (parse_venue_api_data page_content movie_name target_date url).2 = true →
    (parse_venue_api_data page_content movie_name target_date url).1 = true := by
  intro h2
  rw [parse_venue_api_data] at h2 ⊢
  cases hex : extractEvents page_content with
  | none =>
    simp only [hex] at h2
    exact Bool.noConfusion h2
  | some events =>
    simp only [hex] at h2 ⊢
    cases hsv : scanVenueEvents movie_name target_date url events with
    | none =>
      simp only [hsv] at h2
      exact Bool.noConfusion h2
    | some r =>
      simp only [hsv] at h2 ⊢
      rw [scanVenueEvents] at hsv
      cases h1 : scanEvents1 movie_name target_date url events false with
      | none =>
        simp only [h1] at hsv
        exact Option.noConfusion hsv
      | some r1 =>
        simp only [h1] at hsv
        cases hr1 : r1.1 with
        | true =>
          rw [hr1] at hsv
          simp only [if_true] at hsv
          cases hgate : r1.1 && !allDicts events with
          | true =>
            simp only [hgate, if_true] at hsv
            exact Option.noConfusion hsv
          | false =>
            simp only [hgate, Bool.false_eq_true, if_false, Option.some.injEq] at hsv
            rw [← hsv]
            exact hr1
        | false =>
          rw [hr1] at hsv
          simp only [Bool.false_eq_true, if_false] at hsv
          cases h2s : scanEvents2 movie_name target_date events with
          | none =>
            simp only [h2s] at hsv
            exact Option.noConfusion hsv
          | some r2 =>
            simp only [h2s] at hsv
            cases hgate : r2.1 && !allDicts events with
            | true =>
              simp only [hgate, if_true] at hsv
              exact Option.noConfusion hsv
            | false =>
              simp only [hgate, Bool.false_eq_true, if_false, Option.some.injEq] at hsv
              rw [← hsv] at h2 ⊢
              exact scanEvents2_snd_fst movie_name target_date events r2 h2s h2

/-- Counterexample to C2 as stated: on a page without embedded event data the
extractor reports `movieFound = false`; the page contains the movie name and
the corroborating keyword `showtimes`, so the fallback fires — yet the URL
ends as not found and no `AvailabilityResult` is appended, because the
downgrade step clears the fallback match (it never has a show time). -/
theorem fallback_found_claim_cex :
    (parse_venue_api_data c2Content "kingdom" (lastSegment "a/b") "a/b").1 = false ∧
    containsSubstr (strLower c2Content) (strLower "kingdom") = true ∧
    fallbackMatches c2Content "kingdom" = true ∧
    check_url_decision c2Content "kingdom" "a/b" = false ∧
    check_movie (fun _ => c2Content) ["a/b"] "kingdom" = [] :=
  ⟨rfl, rfl, rfl, rfl, rfl⟩

/-- C2 amended: whenever the extractor reports no bookable show time the
downgrade forces the final decision to "not found" — in particular a
fallback-only match (extractor `movieFound = false`) never survives, and no
`AvailabilityResult` is appended for such a URL; the downgrade also applies
to an extractor result of `(true, false)`. -/
theorem fallback_downgrade_amended (fetch : String → String) (urls : List String)
    (movie_name url : String) :
    ((parse_venue_api_data (fetch url) movie_name (lastSegment url) url).2 = false →
      check_url_decision (fetch url) movie_name url = false) ∧
    ((parse_venue_api_data (fetch url) movie_name (lastSegment url) url).1 = false →
      check_url_decision (fetch url) movie_name url = false ∧
      ∀ r ∈ check_movie fetch urls movie_name, r.url ≠ url) := by
  have key : (parse_venue_api_data (fetch url) movie_name (lastSegment url) url).2 = false →
      check_url_decision (fetch url) movie_name url = false := by
    intro h2
    cases hmf : (parse_venue_api_data (fetch url) movie_name (lastSegment url) url).1 <;>
      cases hfb : fallbackMatches (fetch url) movie_name <;>
        simp [check_url_decision, h2, hmf, hfb]
  refine ⟨key, ?_⟩
  intro h1
  have h2 : (parse_venue_api_data (fetch url) movie_name (lastSegment url) url).2 = false := by
    cases hs : (parse_venue_api_data (fetch url) movie_name (lastSegment url) url).2
    · rfl
    · exact absurd (parse_snd_fst (fetch url) movie_name (lastSegment url) url hs)
        (by rw [h1]; exact Bool.false_ne_true)
  have hdec := key h2
  refine ⟨hdec, ?_⟩
  induction urls with
  | nil =>
    intro r hr
    simp [check_movie] at hr
  | cons u rest ih =>
    intro r hr
    rw [check_movie] at hr
    by_cases hu : u = url
    · subst hu
      rw [hdec] at hr
      simp only [if_false] at hr
      exact ih r hr
    · cases hd : check_url_decision (fetch u) movie_name u <;> rw [hd] at hr
      · simp only [if_false] at hr
        exact ih r hr
      · simp only [if_true, List.mem_cons] at hr
        cases hr with
        | inl he => rw [he]; exact hu
        | inr ht => exact ih r ht

/-- Witness for the amended C2: the counterexample page ends as not found
with an empty availability list. -/
theorem fallback_downgrade_amended_witness :
    check_url_decision c2Content "kingdom" "a/b" = false ∧
    ∀ r ∈ check_movie (fun _ => c2Content) ["a/b"] "kingdom", r.url ≠ "a/b" :=
  (fallback_downgrade_amended (fun _ => c2Content) ["a/b"] "kingdom" "a/b").2 rfl

/-! ## Claim theorems: tracking store -/

/-- C7: loading a missing tracking file, or one whose contents are empty or
whitespace-only, yields the empty mapping with the file system untouched (no
backup); a file with invalid JSON is renamed to a timestamped backup and the
empty mapping is returned.  The embedded function is total: no case raises. -/
theorem load_tracking_cases (fs : TrackFS) (now : String) :
    (fs.tracking = none → load_notification_tracking fs now = (Json.obj [], fs)) ∧
    (∀ c, fs.tracking = some c → pyStrip c = "" →
      load_notification_tracking fs now = (Json.obj [], fs)) ∧
    (∀ c, fs.tracking = some c → pyStrip c ≠ "" → jsonParse (pyStrip c) = none →
      load_notification_tracking fs now =
        (Json.obj [],
         { tracking := none, backups := fs.backups ++ [(backupFileName now, c)] })) := by
  refine ⟨?_, ?_, ?_⟩
  · intro h
    simp [load_notification_tracking, h]
  · intro c h hs
    by_cases hc : c = ""
    · simp [load_notification_tracking, h, hc]
    · simp [load_notification_tracking, h, hc, hs]
  · intro c h hne hp
    have hc : ¬ c = "" := by
      intro hc
      rw [hc] at hne
      exact hne rfl
    simp [load_notification_tracking, h, hc, hne, hp]

/-- Witness for C7: a missing file, a whitespace-only file, and the file
`{bad` which is quarantined into a timestamped backup. -/
theorem load_tracking_cases_witness :
    load_notification_tracking { tracking := none, backups := [] } "T" =
      (Json.obj [], { tracking := none, backups := [] }) ∧
    load_notification_tracking { tracking := some " \n ", backups := [] } "T" =
      (Json.obj [], { tracking := some " \n ", backups := [] }) ∧
    load_notification_tracking { tracking := some "\x7bbad", backups := [] } "T" =
      (Json.obj [],
       { tracking := none,
         backups := [("notification_tracking.json.backup.T", "\x7bbad")] }) :=
  ⟨(load_tracking_cases { tracking := none, backups := [] } "T").1 rfl,
   (load_tracking_cases { tracking := some " \n ", backups := [] } "T").2.1 " \n " rfl
     (by decide),
   (load_tracking_cases { tracking := some "\x7bbad", backups := [] } "T").2.2 "\x7bbad" rfl
     (by decide) rfl⟩

/-- C6: `filter_new_notifications` is exactly the filter of the input by
`is_new_notification`: a result is kept iff its URL is configured with at
least one non-empty recipient address and the key
`theatreName_readableDate_movieName` is absent from the loaded store. -/
theorem filter_new_characterization (cfg : List (String × String)) (movie_name : String)
    (tracking_data : Json) (available_theatres : List AvailabilityResult) :
    filter_new_notifications cfg movie_name available_theatres tracking_data =
      available_theatres.filter (is_new_notification cfg movie_name tracking_data) := by
  induction available_theatres with
  | nil => rfl
  | cons t rest ih =>
    rw [filter_new_notifications, ih, List.filter_cons]
    cases hl : assocLookup cfg t.url with
    | none => simp [is_new_notification, hl]
    | some recipient_emails =>
      by_cases he : recipient_emails = ""
      · subst he
        simp [is_new_notification, hl, splitEmails, splitChar, pyStrip]
      · cases hemp : (splitEmails recipient_emails).isEmpty with
        | true => simp [is_new_notification, hl, he, hemp]
        | false =>
          cases hsent : is_notification_sent movie_name t.url
              (splitEmails recipient_emails) tracking_data with
          | true => simp [is_new_notification, hl, he, hemp, hsent]
          | false => simp [is_new_notification, hl, he, hemp, hsent]

/-- C5: when the loaded tracking store already contains the dedup key of an
`AvailabilityResult`, running the notification step on a list holding just
that result dispatches no message and leaves the file-system state exactly as
it was: `send_email` returns from the empty-filter check before any send or
save, so no entry is added, removed or overwritten. -/
theorem dedup_idempotent (cfg : List (String × String))
    (movie_name sender_email sender_password now : String)
    (fs : TrackFS) (content : String) (ms : List (String × Json))
    (r : AvailabilityResult)
    (hfile : fs.tracking = some content)
    (hne : pyStrip content ≠ "")
    (hparse : jsonParse (pyStrip content) = some (Json.obj ms))
    (hkey : (assocLookup ms (create_notification_key movie_name r.url [])).isSome = true) :
    send_email cfg movie_name sender_email sender_password now fs [r] = ([], fs) := by
  have hc : ¬ content = "" := by
    intro hc
    rw [hc] at hne
    exact hne rfl
  have hload : load_notification_tracking fs now = (Json.obj ms, fs) := by
    simp [load_notification_tracking, hfile, hc, hne, hparse]
  have hfilter : filter_new_notifications cfg movie_name [r] (Json.obj ms) = [] := by
    rw [filter_new_notifications]
    cases hl : assocLookup cfg r.url with
    | none => rfl
    | some recipient_emails =>
      by_cases he : recipient_emails = ""
      · simp [he, filter_new_notifications]
      · cases hemp : (splitEmails recipient_emails).isEmpty with
        | true => simp [he, hemp, filter_new_notifications]
        | false =>
          have hsent : is_notification_sent movie_name r.url
              (splitEmails recipient_emails) (Json.obj ms) = true := by
            rw [is_notification_sent, jsonHasKey]
            exact hkey
          simp [he, hemp, hsent, filter_new_notifications]
  rw [send_email, hload]
  simp only [hfilter, List.isEmpty_nil, if_true]

/-- Witness for C5: a store already holding
`Prasads Multiplex_30/07/2025_Kingdom` and the identical availability result;
the run sends nothing and the store file is byte-identical. -/
theorem dedup_idempotent_witness :
    send_email c5Cfg "Kingdom" "me@x.com" "pw" "T" c5FS [c5Result] = ([], c5FS) :=
  dedup_idempotent c5Cfg "Kingdom" "me@x.com" "pw" "T" c5FS c5Content c5Store c5Result
    rfl (by decide) rfl rfl

/-! ## Claim theorems: Notifier grouping -/

/-- `addTheatreToGroups` inserts under `groupKeyOf` (or skips the theatre). -/
theorem addTheatreToGroups_eq (cfg : List (String × String))
    (groups : List (List String × List AvailabilityResult)) (t : AvailabilityResult) :
    addTheatreToGroups cfg groups t =
      match groupKeyOf cfg t with
      | none => groups
      | some key => insertGroup key t groups := by
  rw [addTheatreToGroups, groupKeyOf]
  cases assocLookup cfg t.url with
  | none => rfl
  | some recipient_emails =>
    by_cases he : recipient_emails = ""
    · simp [he]
    · cases hemp : (splitEmails recipient_emails).isEmpty with
      | true => simp [he, hemp]
      | false => simp [he, hemp]

/-- Lookup after a dict insertion: the inserted key's list gains `t` at the
end, every other key is untouched. -/
theorem assoc_insertGroup (key : List String) (t : AvailabilityResult)
    (groups : List (List String × List AvailabilityResult)) (k : List String) :
    assocLookup (insertGroup key t groups) k =
      if k = key then some (((assocLookup groups key).getD []) ++ [t])
      else assocLookup groups k := by
  induction groups with
  | nil =>
    by_cases hk : k = key
    · subst hk
      simp [insertGroup, assocLookup]
    · simp [insertGroup, assocLookup, hk, Ne.symm hk]
  | cons g rest ih =>
    obtain ⟨k0, l0⟩ := g
    by_cases h0 : k0 = key
    · subst h0
      by_cases hk : k = k0
      · subst hk
        simp [insertGroup, assocLookup]
      · simp [insertGroup, assocLookup, hk, Ne.symm hk]
    · by_cases hk : k0 = k
      · subst hk
        have hne : ¬ k0 = key := h0
        simp [insertGroup, assocLookup, h0, hne]
      · simp [insertGroup, assocLookup, h0, hk, ih]

/-- The keys after a dict insertion: unchanged when the key exists, appended
otherwise. -/
theorem keys_insertGroup (key : List String) (t : AvailabilityResult)
    (groups : List (List String × List AvailabilityResult)) :
    (insertGroup key t groups).map Prod.fst =
      if key ∈ groups.map Prod.fst then groups.map Prod.fst
      else groups.map Prod.fst ++ [key] := by
  induction groups with
  | nil => simp [insertGroup]
  | cons g rest ih =>
    obtain ⟨k0, l0⟩ := g
    by_cases h0 : k0 = key
    · subst h0
      simp [insertGroup]
    · simp [insertGroup, h0, ih, Ne.symm h0]
      by_cases hmem : key ∈ rest.map Prod.fst
      · simp [hmem]
      · simp [hmem]
        rw [if_neg (Ne.symm h0)]

/-- Dict insertion preserves distinctness of the keys. -/
theorem nodup_insertGroup (key : List String) (t : AvailabilityResult)
    (groups : List (List String × List AvailabilityResult))
    (h : (groups.map Prod.fst).Nodup) :
    ((insertGroup key t groups).map Prod.fst).Nodup := by
  rw [keys_insertGroup]
  by_cases hk : key ∈ groups.map Prod.fst
  · simp [hk, h]
  · simp [hk, h, List.nodup_append]

/-- The grouping fold collects, per key, exactly the theatres carrying that
key, in input order. -/
theorem buildGroups_assoc (cfg : List (String × String))
    (ts : List AvailabilityResult) :
    ∀ (acc : List (List String × List AvailabilityResult)) (k : List String),
      ((assocLookup (ts.foldl (addTheatreToGroups cfg) acc) k).getD []) =
        ((assocLookup acc k).getD []) ++
          ts.filter fun t => decide (groupKeyOf cfg t = some k) := by
  induction ts with
  | nil =>
    intro acc k
    simp
  | cons t rest ih =>
    intro acc k
    rw [List.foldl_cons, ih, addTheatreToGroups_eq, List.filter_cons]
    cases hk : groupKeyOf cfg t with
    | none => simp
    | some key =>
      by_cases hkk : k = key
      · subst hkk
        rw [assoc_insertGroup]
        simp [List.append_assoc]
      · rw [assoc_insertGroup, if_neg hkk]
        have : ¬ (some key = some k) := by
          intro he
          exact hkk (Option.some.inj he).symm
        simp [this]

/-- The grouping fold keeps the keys distinct. -/
theorem buildGroups_keys_nodup (cfg : List (String × String))
    (ts : List AvailabilityResult) :
    ∀ acc : List (List String × List AvailabilityResult),
      (acc.map Prod.fst).Nodup →
      ((ts.foldl (addTheatreToGroups cfg) acc).map Prod.fst).Nodup := by
  induction ts with
  | nil => intro acc h; exact h
  | cons t rest ih =>
    intro acc h
    rw [List.foldl_cons]
    apply ih
    rw [addTheatreToGroups_eq]
    cases groupKeyOf cfg t with
    | none => exact h
    | some key => exact nodup_insertGroup key t acc h

/-- A successful association lookup exhibits a member. -/
theorem assoc_some_mem {α β : Type} [DecidableEq α] (l : List (α × β)) (k : α) (v : β)
    (h : assocLookup l k = some v) : (k, v) ∈ l := by
  induction l with
  | nil => simp [assocLookup] at h
  | cons g rest ih =>
    obtain ⟨k0, v0⟩ := g
    rw [assocLookup] at h
    by_cases hk : k0 = k
    · subst hk
      rw [if_pos rfl] at h
      rw [Option.some.injEq] at h
      rw [← h]
      exact List.mem_cons_self _ _
    · rw [if_neg hk] at h
      exact List.mem_cons_of_mem _ (ih h)

/-- With distinct keys, membership determines the lookup. -/
theorem entry_assoc {α β : Type} [DecidableEq α] (l : List (α × β))
    (hnd : (l.map Prod.fst).Nodup) (k : α) (v : β) (hmem : (k, v) ∈ l) :
    assocLookup l k = some v := by
  induction l with
  | nil => simp at hmem
  | cons g rest ih =>
    obtain ⟨k0, v0⟩ := g
    rw [List.map_cons, List.nodup_cons] at hnd
    rw [List.mem_cons] at hmem
    rw [assocLookup]
    cases hmem with
    | inl he =>
      rw [Prod.mk.injEq] at he
      obtain ⟨he1, he2⟩ := he
      rw [he1, he2, if_pos rfl]
    | inr ht =>
      have hmm : k ∈ rest.map Prod.fst := by
        simpa using List.mem_map_of_mem Prod.fst ht
      have hk : ¬ k0 = k := by
        intro he
        rw [he] at hnd
        exact hnd.1 hmm
      rw [if_neg hk]
      exact ih hnd.2 ht

/-- The send loop dispatches exactly one message per group, in order. -/
theorem dispatchGroups_fst (cfg : List (String × String)) (movie_name now : String) :
    ∀ (groups : List (List String × List AvailabilityResult)) (tracking_data : Json),
      (dispatchGroups cfg movie_name now groups tracking_data).1 =
        groups.map fun g =>
          ({ recipients := g.1, subject := composeSubject g.2,
             content := composeContent movie_name g.2, theatres := g.2 } : EmailMsg) := by
  intro groups
  induction groups with
  | nil => intro trk; rfl
  | cons g rest ih =>
    intro trk
    obtain ⟨recipient_emails, theatres⟩ := g
    simp [dispatchGroups, ih]

/-- Counting the entries of a distinct-key association list whose key is a
given one: exactly one, provided the key occurs. -/
theorem countP_unique_key (k1 : List String)
    (p : List String × List AvailabilityResult → Bool) :
    ∀ groups : List (List String × List AvailabilityResult),
      (groups.map Prod.fst).Nodup → k1 ∈ groups.map Prod.fst →
      (∀ g ∈ groups, p g = true ↔ g.1 = k1) →
      groups.countP p = 1 := by
  intro groups
  induction groups with
  | nil =>
    intro _ hmem _
    simp at hmem
  | cons g rest ih =>
    intro hnd hmem hp
    rw [List.map_cons, List.nodup_cons] at hnd
    rw [List.countP_cons]
    by_cases hg : g.1 = k1
    · have hpg : p g = true := (hp g (List.mem_cons_self g rest)).mpr hg
      have h0 : rest.countP p = 0 := by
        rw [List.countP_eq_zero]
        intro g2 hg2 hpg2
        have he : g2.1 = k1 := (hp g2 (List.mem_cons_of_mem g hg2)).mp hpg2
        rw [← hg] at he
        have : g.1 ∈ rest.map Prod.fst := by
          rw [← he]
          exact List.mem_map_of_mem Prod.fst hg2
        exact hnd.1 this
      rw [h0, hpg]
      simp
    · have hpg : p g = false := by
        cases hq : p g with
        | false => rfl
        | true => exact absurd ((hp g (List.mem_cons_self g rest)).mp hq) hg
      have hmem2 : k1 ∈ rest.map Prod.fst := by
        rw [List.map_cons, List.mem_cons] at hmem
        cases hmem with
        | inl he => exact absurd he.symm hg
        | inr ht => exact ht
      rw [ih hnd.2 hmem2 (fun g2 h2 => hp g2 (List.mem_cons_of_mem g h2)), hpg]
      simp

/-- Per-key content of the `email_groups` dict: exactly the theatres whose
recipients sort to that key, in input order. -/
theorem buildGroups_assoc0 (cfg : List (String × String))
    (ts : List AvailabilityResult) (k : List String) :
    ((assocLookup (buildGroups cfg ts) k).getD []) =
      ts.filter fun t => decide (groupKeyOf cfg t = some k) := by
  rw [buildGroups]
  have h := buildGroups_assoc cfg ts [] k
  simpa using h

/-- Counterexample to C8 as stated: the grouping key is `tuple(sorted(emails))`
with duplicates kept, not a de-duplicated set.  Two URLs whose recipient
**sets** coincide — one listing `a@x.com` twice — land in different groups:
the run dispatches two messages and no single message covers both theatres,
where the claim demands exactly one message covering both. -/
theorem grouping_dedup_claim_cex :
    dedupStrs (sortStrs (splitEmails "a@x.com, a@x.com")) =
      dedupStrs (sortStrs (splitEmails "a@x.com")) ∧
    sortStrs (splitEmails "a@x.com, a@x.com") ≠ sortStrs (splitEmails "a@x.com") ∧
    (send_email c8cfg "Kingdom" "me@x.com" "pw" "T" { tracking := none, backups := [] }
      [c8r1, c8r2]).1.length = 2 ∧
    ((send_email c8cfg "Kingdom" "me@x.com" "pw" "T" { tracking := none, backups := [] }
      [c8r1, c8r2]).1.countP fun m =>
        decide (c8r1 ∈ m.theatres) && decide (c8r2 ∈ m.theatres)) = 0 := by
  refine ⟨rfl, by decide, rfl, rfl⟩

/-- C8 amended: the partition key is `sorted(emails)` with duplicates
retained, so two results whose URLs resolve to the same sorted recipient
list (the same multiset, regardless of listing order or input order) are
covered by exactly one dispatched message, and results with different sorted
recipient lists never share a message. -/
theorem grouping_amended (cfg : List (String × String)) (movie_name now : String)
    (tracking_data : Json) (new_notifications : List AvailabilityResult)
    (t1 t2 : AvailabilityResult) (k1 k2 : List String)
    (h1 : t1 ∈ new_notifications) (h2 : t2 ∈ new_notifications)
    (hk1 : groupKeyOf cfg t1 = some k1) (hk2 : groupKeyOf cfg t2 = some k2) :
    ((dispatchGroups cfg movie_name now (buildGroups cfg new_notifications)
        tracking_data).1.countP fun m =>
      decide (t1 ∈ m.theatres) && decide (t2 ∈ m.theatres)) =
      if k1 = k2 then 1 else 0 := by
  rw [dispatchGroups_fst, List.countP_map]
  have hnd : ((buildGroups cfg new_notifications).map Prod.fst).Nodup := by
    rw [buildGroups]
    exact buildGroups_keys_nodup cfg new_notifications [] (by simp)
  have hmemchar : ∀ g ∈ buildGroups cfg new_notifications, ∀ t : AvailabilityResult,
      t ∈ g.2 ↔ (t ∈ new_notifications ∧ groupKeyOf cfg t = some g.1) := by
    intro g hg t
    have hassoc : assocLookup (buildGroups cfg new_notifications) g.1 = some g.2 :=
      entry_assoc _ hnd g.1 g.2 (by simpa using hg)
    have hchar := buildGroups_assoc0 cfg new_notifications g.1
    rw [hassoc] at hchar
    simp only [Option.getD_some] at hchar
    rw [hchar, List.mem_filter]
    simp
  have hk1mem : k1 ∈ (buildGroups cfg new_notifications).map Prod.fst := by
    have hchar := buildGroups_assoc0 cfg new_notifications k1
    have ht1 : t1 ∈ new_notifications.filter
        fun t => decide (groupKeyOf cfg t = some k1) :=
      List.mem_filter.mpr ⟨h1, by simp [hk1]⟩
    cases hassoc : assocLookup (buildGroups cfg new_notifications) k1 with
    | none =>
      rw [hassoc] at hchar
      simp only [Option.getD_none] at hchar
      rw [← hchar] at ht1
      simp at ht1
    | some l =>
      exact List.mem_map.mpr ⟨(k1, l), assoc_some_mem _ k1 l hassoc, rfl⟩
  by_cases hkk : k1 = k2
  · subst hkk
    rw [if_pos rfl]
    apply countP_unique_key k1 _ (buildGroups cfg new_notifications) hnd hk1mem
    intro g hg
    constructor
    · intro hpg
      simp only [Function.comp_apply, Bool.and_eq_true, decide_eq_true_iff] at hpg
      have hgk := ((hmemchar g hg t1).mp hpg.1).2
      rw [hk1] at hgk
      exact (Option.some.inj hgk).symm
    · intro hg1
      simp only [Function.comp_apply, Bool.and_eq_true, decide_eq_true_iff]
      exact ⟨(hmemchar g hg t1).mpr ⟨h1, by rw [hk1, hg1]⟩,
             (hmemchar g hg t2).mpr ⟨h2, by rw [hk2, hg1]⟩⟩
  · rw [if_neg hkk, List.countP_eq_zero]
    intro g hg hpg
    simp only [Function.comp_apply, Bool.and_eq_true, decide_eq_true_iff] at hpg
    have e1 := ((hmemchar g hg t1).mp hpg.1).2
    have e2 := ((hmemchar g hg t2).mp hpg.2).2
    rw [hk1] at e1
    rw [hk2] at e2
    exact hkk ((Option.some.inj e1).trans (Option.some.inj e2).symm)

/-- Witness for the amended C8: the same recipient multiset listed in two
different orders yields exactly one message covering both theatres. -/
theorem grouping_amended_witness :
    ((dispatchGroups c8cfgB "Kingdom" "T" (buildGroups c8cfgB [c8r1, c8r2])
        (Json.obj [])).1.countP fun m =>
      decide (c8r1 ∈ m.theatres) && decide (c8r2 ∈ m.theatres)) = 1 := by
  have h := grouping_amended c8cfgB "Kingdom" "T" (Json.obj []) [c8r1, c8r2] c8r1 c8r2
    ["a@x.com", "b@x.com"] ["a@x.com", "b@x.com"]
    (by simp) (by simp) rfl rfl
  rw [if_pos rfl] at h
  exact h
